import Mathlib

/-!
Verification development for the Dynamo extension
(`src/pages/LocalScript.tsx`, `src/service/dynamo.ts`).

The TypeScript sources are shallowly embedded below:
pure functions become Lean functions, JS values flowing through
`JSON.stringify` are modelled by the inductive `Json` type together with an
executable encoder, fallible code returns `Except String`, and every network
or platform (Forma SDK) call is a field of an explicit environment record.
JS numbers are modelled as `Int` (no claim under verification depends on
floating-point rounding).
-/

/-- JSON value tree.  Models the JavaScript values that the extension passes
to `JSON.stringify` / receives from `response.json()`.  `undef` is the JS
value `undefined`, distinct from `null`: it is what `JSON.stringify` itself
returns when applied to `undefined` (as the terrain branch of `onRun` can
do), and it is not a string. -/
inductive Json where
  | undef
  | null
  | bool (b : Bool)
  | num (n : Int)
  | str (s : String)
  | arr (xs : List Json)
  | obj (fields : List (String × Json))

mutual

/-- Executable JSON encoder, modelling `JSON.stringify` on the `Json` tree.
String escaping handles the quote and backslash characters, which is enough
for every literal appearing in this development.  `JSON.stringify(undefined)`
is the JS value `undefined`, not a string, so the embedding never applies the
encoder to `undef` — the branch of `onRun` where that can happen
(`GetTerrain` with no terrain path) carries `Json.undef` through as the wire
value instead; the `undef` clause below only keeps the function total. -/
def Json.encode : Json → String
  | .undef => "undefined"
  | .null => "null"
  | .bool true => "true"
  | .bool false => "false"
  | .num n => toString n
  | .str s => "\"" ++ Json.escape s.data ++ "\""
  | .arr xs => "[" ++ Json.encodeList xs ++ "]"
  | .obj fs => "\x7b" ++ Json.encodeFields fs ++ "\x7d"

def Json.escape : List Char → String
  | [] => ""
  | c :: cs =>
      (if c = '"' then "\\\"" else if c = '\\' then "\\\\" else String.singleton c)
        ++ Json.escape cs

def Json.encodeList : List Json → String
  | [] => ""
  | [x] => Json.encode x
  | x :: xs => Json.encode x ++ "," ++ Json.encodeList xs

def Json.encodeFields : List (String × Json) → String
  | [] => ""
  | [f] => "\"" ++ Json.escape f.1.data ++ "\":" ++ Json.encode f.2
  | f :: fs =>
      "\"" ++ Json.escape f.1.data ++ "\":" ++ Json.encode f.2 ++ "," ++ Json.encodeFields fs

end

/-- Field lookup on a JSON object (JavaScript property access `body.k`):
first binding wins, anything that is not an object has no fields. -/
def Json.getField : Json → String → Option Json
  | .obj fs, k => (fs.find? (fun f => f.1 = k)).map (·.2)
  | _, _ => none

/-- String-valued field access with a default, modelling the JS pattern of
reading a property and interpolating it (an absent property prints as
`undefined`). -/
def Json.strFieldD (j : Json) (k : String) (d : String) : String :=
  match j.getField k with
  | some (.str s) => s
  | _ => d

/-- World transform: the 16-entry column-major homogeneous matrix delivered by
`Forma.elements.getWorldTransform`.  Entry 10 is the vertical (z) scale,
entries 12/13/14 the x/y/z translations.  Modelled as a total function so the
source's unchecked indexing `transform[i]` is total. -/
def Transform : Type := Fin 16 → Int

/-- Identity matrix used by `onRun` for the `"root"` path
(`[1,0,0,0, 0,1,0,0, 0,0,1,0, 0,0,0,1]`). -/
def identityTransform : Transform := fun i =>
  if i = (0 : Fin 16) ∨ i = (5 : Fin 16) ∨ i = (10 : Fin 16) ∨ i = (15 : Fin 16) then 1 else 0

/-- Rendering of a transform as the JSON array sent on the wire. -/
def transformToJson (t : Transform) : Json :=
  .arr ((List.finRange 16).map (fun i => Json.num (t i)))

/-- Modelled from the spec: `transformCoordinates` lives in
`src/utils/transformCoordinates.ts`, which is not part of the provided
sources.  Per spec §4.1 (`composeCoordinate`) it applies the already-composed
4x4 transform to each planar point of a ring, preserving point order; with
column-major layout that is `x' = m0*x + m4*y + m12`, `y' = m1*x + m5*y + m13`. -/
def transformCoordinates (t : Transform) (ring : List (Int × Int)) : List (Int × Int) :=
  ring.map (fun pt =>
    (t 0 * pt.1 + t 4 * pt.2 + t 12, t 1 * pt.1 + t 5 * pt.2 + t 13))

/-- Selection rule attached to a volume-representation
(`RepresentationSelection` from the `forma-elements` package).  The
`unrecognized` constructor stands for any rule kind other than the two the
code knows, so that the `default:` branch of `createSelectionPredicate` is
reachable in the model. -/
inductive RepresentationSelection where
  | equals (value : String)
  | startsWith (value : String)
  | unrecognized (kind : String)
deriving DecidableEq, Repr

/-- Properties bag of a 2.5D volume feature: scalar `height` and optional
`elevation`. -/
structure VolumeProps where
  height : Int
  elevation : Option Int
deriving DecidableEq, Repr

/-- Geometry of a 2.5D volume feature: a list of rings of coordinate pairs
(`feature.geometry.coordinates`). -/
structure VolumeGeometry where
  coordinates : List (List (Int × Int))
deriving DecidableEq, Repr

/-- One 2.5D volume feature (`Volume25D` from `forma-elements`): an `id` used
for selection filtering plus properties and geometry. -/
structure Volume25D where
  id : String
  properties : VolumeProps
  geometry : VolumeGeometry
deriving DecidableEq, Repr

/-- Payload of a `volume25DCollection` representation before any transform is
applied (`JsonRepresentations["volume25DCollection"]`). -/
structure Volume25DCollection where
  features : List Volume25D
deriving DecidableEq, Repr

/-- Payload variants of a volume representation: `linked` carries a blob id,
`embedded-json` carries the collection inline, `other` stands for any further
representation kind (handled by the `default:` branch of
`loadVolume25Collection`). -/
inductive RepPayload where
  | linked (blobId : String)
  | embeddedJson (data : Volume25DCollection)
  | other
deriving DecidableEq, Repr

/-- A volume-collection representation attached to an element: payload plus
optional selection rule. -/
structure Volume25DRep where
  payload : RepPayload
  selection : Option RepresentationSelection
deriving DecidableEq, Repr

/-- Output feature collection built by `getVolume25DForSubTree`
(`{ type: "FeatureCollection", features }`). -/
structure FeatureCollection where
  type : String
  features : List Volume25D
deriving DecidableEq, Repr

/-- Snapshot of one model element.  The SDK delivers elements as a urn-keyed
map with `children : [{key, urn}]` references; the inductive tree below is
that snapshot with every child urn resolved (the claims under verification
concern snapshots where resolution succeeds).  `volume25DCollection` models
`element.representations?.volume25DCollection` with the two optional layers
flattened into one. -/
inductive Element where
  | mk (urn : String) (volume25DCollection : Option Volume25DRep)
      (children : List (String × Element))

def Element.urn : Element → String
  | .mk u _ _ => u

def Element.volume25DCollection : Element → Option Volume25DRep
  | .mk _ r _ => r

def Element.children : Element → List (String × Element)
  | .mk _ _ cs => cs

mutual

/-- Executable size of an element tree, used as the termination measure of the
explicit-stack walks (the derived `sizeOf` of this nested inductive is not
executable). -/
def Element.size : Element → Nat
  | .mk _ _ cs => 1 + Element.sizeChildren cs

def Element.sizeChildren : List (String × Element) → Nat
  | [] => 0
  | c :: cs => Element.size c.2 + Element.sizeChildren cs

end

theorem Element.size_pos (e : Element) : 0 < e.size := by
  cases e with
  | mk u r cs => simp [Element.size]

theorem Element.sizeChildren_lt_size (u : String) (r : Option Volume25DRep)
    (cs : List (String × Element)) :
    Element.sizeChildren cs < (Element.mk u r cs).size := by
  simp [Element.size]

/-- Environment of Forma-SDK collaborators consumed by `LocalScript.tsx`.
Each field models one platform call; the element tree fields deliver the
read-only snapshot the SDK returns. -/
structure FormaEnv where
  rootUrn : String
  region : String
  projectId : String
  projectData : Json
  rootElement : Element
  getByPath : String → Option Element
  getWorldTransform : String → Transform
  getTriangles : String → Option (List Int)
  getFootprint : String → Option (List (List (Int × Int)))
  pathsByCategory : String → List String
  areaMetrics : List String → Json
  blobs : String → Volume25DCollection

/-- Embeds `loadVolume25Collection` (LocalScript.tsx:137-153): no
representation yields no collection, a `linked` payload is resolved through
the blob store and parsed, an `embedded-json` payload is returned as-is, and
any other representation kind yields no collection. -/
def loadVolume25Collection (env : FormaEnv) :
    Option Volume25DRep → Option Volume25DCollection
  | none => none
  | some rep =>
      match rep.payload with
      | .linked blobId => some (env.blobs blobId)
      | .embeddedJson data => some data
      | .other => none

/-- Executable model of JS `value.startsWith(prefixValue)`: the characters of
`prefixValue` are an initial segment of those of `value` (Lean's builtin
`String.startsWith` is semantically identical but is not kernel-reducible, so
the char-list form is used throughout). -/
def strStartsWith (value prefixValue : String) : Bool :=
  prefixValue.data.isPrefixOf value.data

/-- Embeds `createSelectionPredicate` (LocalScript.tsx:155-167): an absent
selection matches everything, `equals`/`startsWith` compare against the rule's
value, and any other rule kind throws. -/
def createSelectionPredicate :
    Option RepresentationSelection → Except String (String → Bool)
  | none => .ok (fun _ => true)
  | some (.equals v) => .ok (fun value => value = v)
  | some (.startsWith v) => .ok (fun value => strStartsWith value v)
  | some (.unrecognized k) => .error ("Invalid selection: " ++ k)

/-- Embeds the per-feature mapping of `getVolume25DForSubTree`
(LocalScript.tsx:193-209): height is scaled by `transform[10]`, elevation is
computed by the source expression
`(feature.properties.elevation ?? 0 * transform[10]) + transform[14]` (note
that `??` binds looser than `*`, so the scale multiplies the literal zero),
and every ring is mapped through `transformCoordinates`. -/
def transformVolume25D (transform : Transform) (feature : Volume25D) : Volume25D :=
  { feature with
    properties :=
      { height := feature.properties.height * transform 10
        elevation := some ((feature.properties.elevation.getD (0 * transform 10)) + transform 14) }
    geometry :=
      { coordinates := feature.geometry.coordinates.map (transformCoordinates transform) } }

/-- Measure for the explicit-stack walks: total size of the elements still on
the stack. -/
def stackMeasure (st : List (String × Element)) : Nat :=
  (st.map (fun pe => Element.size pe.2)).sum

theorem stackMeasure_cons (pe : String × Element) (st : List (String × Element)) :
    stackMeasure (pe :: st) = Element.size pe.2 + stackMeasure st := by
  simp [stackMeasure]

theorem stackMeasure_foldl (cs : List (String × Element)) (p : String)
    (rest : List (String × Element)) :
    stackMeasure (cs.foldl (fun s c => (p ++ "/" ++ c.1, c.2) :: s) rest)
      = Element.sizeChildren cs + stackMeasure rest := by
  induction cs generalizing rest with
  | nil => simp [Element.sizeChildren]
  | cons c cs ih =>
    simp only [List.foldl_cons, ih, stackMeasure_cons, Element.sizeChildren]
    omega

/-- Embeds the `while (stack.length)` loop of `getVolume25DForSubTree`
(LocalScript.tsx:174-216).  The TS stack pops from the array's end and pushes
each child in order, which the model mirrors by folding `cons` over the
children (so the list head is the array's top).  For the popped node the
representation is resolved, the selection predicate built (a throw aborts the
whole walk), features filtered by id and transformed, and the resulting
collection appended to the accumulator; nodes without a resolvable collection
are skipped (`continue`). -/
def volumeWalk (env : FormaEnv) (stack : List (String × Element))
    (collections : List FeatureCollection) : Except String (List FeatureCollection) :=
  match stack with
  | [] => .ok collections
  | (path, element) :: rest =>
      let newStack := element.children.foldl (fun s c => (path ++ "/" ++ c.1, c.2) :: s) rest
      match loadVolume25Collection env element.volume25DCollection with
      | none => volumeWalk env newStack collections
      | some volume25DCollection =>
          let transform := env.getWorldTransform path
          match createSelectionPredicate
              ((element.volume25DCollection.map (·.selection)).getD none) with
          | .error e => .error e
          | .ok selectionPredicate =>
              let filtered := volume25DCollection.features.filter
                (fun f => selectionPredicate f.id)
              let transformed : FeatureCollection :=
                { type := "FeatureCollection"
                  features := filtered.map (transformVolume25D transform) }
              volumeWalk env newStack (collections ++ [transformed])
termination_by stackMeasure stack
decreasing_by
  · cases element with
    | mk u r cs =>
      simp only [stackMeasure_foldl, stackMeasure_cons, Element.children, Element.size]
      omega
  · cases element with
    | mk u r cs =>
      simp only [stackMeasure_foldl, stackMeasure_cons, Element.children, Element.size]
      omega

/-- Embeds `getVolume25DForSubTree` (LocalScript.tsx:169-224): fetch the
subtree snapshot for the path (a missing element makes the source dereference
`undefined`, modelled as an error), run the stack walk seeded with the root,
then flatten the accumulated collections into one `FeatureCollection` (the
source's `.filter((fc) => !!fc)` is the identity because every pushed
collection is non-null). -/
def getVolume25DForSubTree (env : FormaEnv) (path : String) :
    Except String FeatureCollection :=
  match env.getByPath path with
  | none => .error ("Element not found at path " ++ path)
  | some element =>
      (volumeWalk env [(path, element)] []).map (fun collections =>
        { type := "FeatureCollection"
          features := (collections.map (·.features)).flatten })

theorem Element.size_le_of_mem {c : String × Element} {cs : List (String × Element)}
    (h : c ∈ cs) : Element.size c.2 ≤ Element.sizeChildren cs := by
  induction cs with
  | nil => cases h
  | cons d ds ih =>
    rcases List.mem_cons.mp h with h | h
    · subst h
      simp [Element.sizeChildren]
    · have := ih h
      simp only [Element.sizeChildren]
      omega

/-- Embeds the inner `getElementsByPath` of `getAllPaths`
(LocalScript.tsx:262-278): `"root"` resolves to the root element; any other
path is split on `/`, the first segment is discarded (`slice(1)`), and the
remaining keys are followed from the root, taking at each step the first child
whose key matches and failing if there is none. -/
def getElementsByPath (root : Element) (path : String) : Except String Element :=
  if path = "root" then .ok root
  else
    ((path.splitOn "/").drop 1).foldlM
      (fun element key =>
        match element.children.find? (fun child => child.1 = key) with
        | none => .error ("Element not found at path " ++ path)
        | some child => .ok child.2)
      root

/-- Embeds the inner `findAllPaths` of `getAllPaths`
(LocalScript.tsx:280-287): emit the current path, then for every child ref
recurse into `path ++ "/" ++ key`.  The source resolves that extended path
from the root on every call through `getElementsByPath`, which follows the
first child matching each key; resolving `path ++ "/" ++ key` therefore
performs exactly one first-match step (`find?` below) from the element the
current call resolved, and the model takes that step directly, keeping the
recursion well-founded. -/
def findAllPaths (e : Element) (path : String) : List String :=
  path ::
    (e.children.map (fun c =>
        match h : e.children.find? (fun child => child.1 = c.1) with
        | some child => findAllPaths child.2 (path ++ "/" ++ c.1)
        | none => [])).flatten
termination_by e.size
decreasing_by
  cases e with
  | mk u r cs =>
    have hmem := List.mem_of_find?_eq_some h
    have := Element.size_le_of_mem hmem
    simp only [Element.children] at this ⊢
    have hlt := Element.sizeChildren_lt_size u r cs
    calc Element.size child.2 ≤ Element.sizeChildren cs := this
    _ < (Element.mk u r cs).size := hlt

/-- Embeds `getAllPaths` (LocalScript.tsx:257-290): walk the whole snapshot of
the root model starting at the fixed root token. -/
def getAllPaths (env : FormaEnv) : List String :=
  findAllPaths env.rootElement "root"

/-- Modelled from the spec: `enumeratePaths` per §4.2 — "yields every path
including the root, pre-order".  This is the specification-side enumeration
that recurses structurally into each child subtree; `c6_full_model_paths`
proves the source's resolution-based `getAllPaths` refines it. -/
def enumeratePathsSpec (e : Element) (path : String) : List String :=
  path ::
    (e.children.attach.map (fun c => enumeratePathsSpec c.1.2 (path ++ "/" ++ c.1.1))).flatten
termination_by e.size
decreasing_by
  cases e with
  | mk u r cs =>
    have := Element.size_le_of_mem c.2
    simp only [Element.children] at this ⊢
    have hlt := Element.sizeChildren_lt_size u r cs
    calc Element.size c.1.2 ≤ Element.sizeChildren cs := this
    _ < (Element.mk u r cs).size := hlt

/-- Reachability from an element by following child keys: `Follows e ks` holds
when the key sequence `ks` can be traced from `e` through (some occurrence of)
each key in order.  This is the spec's notion "reachable from the root by
following child keys". -/
inductive Follows : Element → List String → Prop
  | nil (e : Element) : Follows e []
  | cons {e : Element} {k : String} {ks : List String} (c : String × Element)
      (hc : c ∈ e.children) (hk : c.1 = k) (h : Follows c.2 ks) : Follows e (k :: ks)

/-- The path string addressed by a key sequence, built the way the walker
builds paths: start at the root token and append `"/" ++ key` per step. -/
def pathOfKeys (ks : List String) : String :=
  ks.foldl (fun p k => p ++ "/" ++ k) "root"

/-- Data-model invariant on element snapshots (spec §3: children form a
key-to-child mapping, keys are path segments): at every node the child keys
are distinct and contain no `/`. -/
inductive WellFormed : Element → Prop
  | mk {e : Element}
      (hnodup : (e.children.map Prod.fst).Nodup)
      (hslash : ∀ c ∈ e.children, '/' ∉ c.1.data)
      (hrec : ∀ c ∈ e.children, WellFormed c.2) : WellFormed e

theorem WellFormed.nodup {e : Element} (h : WellFormed e) :
    (e.children.map Prod.fst).Nodup := by
  cases h with
  | mk hnodup hslash hrec => exact hnodup

theorem WellFormed.slashFree {e : Element} (h : WellFormed e) :
    ∀ c ∈ e.children, '/' ∉ c.1.data := by
  cases h with
  | mk hnodup hslash hrec => exact hslash

theorem WellFormed.child {e : Element} (h : WellFormed e) :
    ∀ c ∈ e.children, WellFormed c.2 := by
  cases h with
  | mk hnodup hslash hrec => exact hrec

/-- Embeds the `FetchError` class of `dynamo.ts:1-8`: a message plus the HTTP
status. -/
structure FetchError where
  message : String
  status : Nat
deriving DecidableEq, Repr

/-- Options object passed to `fetch` (`RequestInit`): method, headers and an
optional body, the body being the JSON text produced by `JSON.stringify`. -/
structure RequestInit' where
  method : String := "GET"
  headers : List (String × String) := []
  body : Option String := none
deriving DecidableEq, Repr

/-- An outgoing HTTP request as actually issued: url, method, final headers
(after any Authorization injection) and optional body text. -/
structure HttpRequest where
  url : String
  method : String
  headers : List (String × String)
  body : Option String
deriving DecidableEq, Repr

/-- An HTTP response: status, status text and the parsed JSON body
(`response.json()`). -/
structure HttpResponse where
  status : Nat
  statusText : String
  body : Json

/-- Header-name lookup used by `headers.has("Authorization")`.  JS `Headers`
are case-insensitive; every name in this development is spelled
`"Authorization"`, so an exact comparison is faithful here. -/
def hasHeader (headers : List (String × String)) (name : String) : Bool :=
  headers.any (fun h => h.1 = name)

/-- Embeds `Dynamo._fetch` (dynamo.ts:139-150) as request construction: when a
token provider is configured (`authProvider`, modelled by the token string it
resolves to) and an options object was passed and it does not already carry an
`Authorization` header, the header is appended; calling `_fetch` without an
options object (as `serverInfo` does) skips the injection entirely, and a
plain `fetch` call never goes through this helper. -/
def mkFetchReq (authProvider : Option String) (url : String)
    (init : Option RequestInit') : HttpRequest :=
  match init with
  | none => { url := url, method := "GET", headers := [], body := none }
  | some i =>
      match authProvider with
      | none => { url := url, method := i.method, headers := i.headers, body := i.body }
      | some token =>
          if hasHeader i.headers "Authorization" then
            { url := url, method := i.method, headers := i.headers, body := i.body }
          else
            { url := url, method := i.method
              headers := i.headers ++ [("Authorization", token)], body := i.body }

/-- Embeds the `GraphTarget` union of `dynamo.ts:32-45`. -/
inductive GraphTarget where
  | pathTarget (path : String) (forceReopen : Option Bool)
  | currentTarget
  | jsonTarget (graph : Option Json) (contents : Option String)

/-- Wire rendering of a graph target (key order follows the object literals in
`onRun`). -/
def GraphTarget.toJson : GraphTarget → Json
  | .pathTarget p forceReopen =>
      .obj ([("type", .str "PathGraphTarget"), ("path", .str p)]
        ++ (match forceReopen with
            | none => []
            | some b => [("forceReopen", .bool b)]))
  | .currentTarget => .obj [("type", .str "CurrentGraphTarget")]
  | .jsonTarget graph contents =>
      .obj ([("type", .str "JsonGraphTarget")]
        ++ (match graph with
            | none => []
            | some g => [("graph", g)])
        ++ (match contents with
            | none => []
            | some c => [("contents", .str c)]))

/-- One element of `RunInputs` (dynamo.ts:120): the wire pair `{nodeId, value}`.
`value` has TS type `any`; here it is the `Json` value the pair carries — a
`Json.str` whenever the materializer JSON-encoded the logical value, and the
raw state value in the fall-through case. -/
structure RunInput where
  nodeId : String
  value : Json

/-- The run-submission payload uploaded in step 2 of the async protocol and
posted by the synchronous path
(`{target, ignoreInputs:false, getImage:false, getGeometry:false,
getContents:false, inputs}`). -/
def uploadBodyJson (target : GraphTarget) (inputs : List RunInput) : Json :=
  .obj [("target", target.toJson),
        ("ignoreInputs", .bool false),
        ("getImage", .bool false),
        ("getGeometry", .bool false),
        ("getContents", .bool false),
        ("inputs", .arr (inputs.map (fun i =>
          .obj [("nodeId", .str i.nodeId), ("value", i.value)])))]

/-- Embeds the `Issue` type of `dynamo.ts:79-84`. -/
structure Issue where
  nodeId : String
  nodeName : String
  type : String
  message : String
deriving DecidableEq, Repr

/-- Embeds the `Run` result type of `dynamo.ts:86-95`.  Outputs are kept as
raw JSON values because the hardcoded job literal in `runAsync` attaches
fields (`items`, array-valued `value`) that the declared `Output` type does
not have (the source silences this with `as any`). -/
structure RunInfo where
  id : String
  issues : List Issue
  name : String
  outputs : List Json
  status : String

structure Run where
  info : RunInfo
  title : Option String := none

/-- The long JSON text that appears (twice) inside the hardcoded job literal
of `runAsync` (dynamo.ts:212 and 223). -/
def integrateElementsValue : String :=
  "[\x7b\"urn\":\"urn:adsk-forma-elements:integrate:pro_brv2lm8dmg:0a8429ef-2a63-41f8-bb52-89d9f46d6505:1728643644867\",\"transform\":[1.0,0.0,0.0,0.0,0.0,1.0,0.0,0.0,0.0,0.0,1.0,0.0,0.0,0.0,0.0,1.0]\x7d]"

/-- Poll status plus embedded result, the shape the commented-out
`/v1/graph/results/{jobId}` fetch would decode. -/
structure JobStatus where
  status : String
  result : Run

/-- Embeds the hardcoded `job` literal of `runAsync` (dynamo.ts:186-238): the
polling fetch is commented out in the source and replaced by this constant,
whose status is always `"COMPLETE"`.  Number literals `1.0`/`0.0` inside the
quoted strings are kept verbatim; the numeric `count: 0` fields become
`Json.num 0`. -/
def hardcodedJob : JobStatus :=
  { status := "COMPLETE"
    result :=
      { info :=
          { issues :=
              [ { nodeId := "3071764a-815e-4e04-8b4d-2ce9e8ae81d1"
                  nodeName := "Integrate.ByRepresentations"
                  type := "WARNING"
                  message := "Integrate.ByRepresentations operation failed. \r\nObject reference not set to an instance of an object." },
                { nodeId := "d9e5d783-b951-42e8-9bac-9d6c12aed9d1"
                  nodeName := "TerrainShape.ByCurve"
                  type := "WARNING"
                  message := "TerrainShape.ByCurve operation failed. \r\nUnable to cast object of type 'System.String' to type 'System.Byte[]'." } ]
            status := "WARNINGS"
            outputs :=
              [ .obj [("id", .str "eecab10a-c774-4ee3-ae63-3ee6121e7fc4"),
                      ("name", .str "SendElementsToForma"),
                      ("value", .arr [.str integrateElementsValue, .null]),
                      ("valueString", .obj
                        [("count", .num 0), ("value", .str "List"),
                         ("items", .obj
                           [("0", .obj [("path", .arr [.str "0"]), ("count", .num 0),
                                        ("value", .str integrateElementsValue)]),
                            ("1", .obj [("path", .arr [.str "1"]), ("count", .num 0)])])]),
                      ("type", .str "SendElementsToForma")] ]
            id := ""
            name := "" } } }

/-- Outcome of `runAsync`: a resolved run, a thrown `FetchError`, or
non-termination of the poll loop (the `while (true)` body repeats identically
when the job status is neither terminal state, because the job is a
constant). -/
inductive RunOutcome where
  | ok (r : Run)
  | err (e : FetchError)
  | diverge

/-- Client configuration: base url plus the optional token provider, modelled
by the token it resolves to. -/
structure DynamoClient where
  url : String
  authProvider : Option String

/-- Embeds `Dynamo.runAsync` (dynamo.ts:152-247) against a response oracle
`env` that maps the index of each issued request (in issue order) to its
response.  Step 1 creates the job via `_fetch` (status other than 200 throws);
step 2 PUTs the payload to the upload url via plain `fetch` — no Authorization
injection — and never reads the response; step 3 triggers the job via `_fetch`
(non-200 throws); the polling loop is the hardcoded constant job described at
`hardcodedJob`, so its first iteration already returns `hardcodedJob.result`
and no request to the results endpoint is ever issued.  The returned list is
the trace of issued requests. -/
def runAsyncT (cl : DynamoClient) (target : GraphTarget) (inputs : List RunInput)
    (env : Nat → HttpResponse) : RunOutcome × List HttpRequest :=
  let req0 := mkFetchReq cl.authProvider (cl.url ++ "/v1/graph/job/create")
    (some { method := "GET" })
  let createJob := env 0
  if createJob.status ≠ 200 then
    (.err { message := createJob.statusText, status := createJob.status }, [req0])
  else
    let jobId := createJob.body.strFieldD "jobId" "undefined"
    let uploadUrl := createJob.body.strFieldD "uploadUrl" "undefined"
    let req1 : HttpRequest :=
      { url := uploadUrl, method := "PUT", headers := []
        body := some (Json.encode (uploadBodyJson target inputs)) }
    let req2 := mkFetchReq cl.authProvider
      (cl.url ++ "/v1/graph/job/" ++ jobId ++ "/run?passtoken=1") (some { method := "POST" })
    let response := env 2
    if response.status ≠ 200 then
      (.err { message := response.statusText, status := response.status }, [req0, req1, req2])
    else
      let outcome :=
        if hardcodedJob.status = "SUCCESS" ∨ hardcodedJob.status = "COMPLETE" then
          RunOutcome.ok hardcodedJob.result
        else if hardcodedJob.status = "FAILED" then
          RunOutcome.err { message := "Job failed", status := 500 }
        else
          RunOutcome.diverge
      (outcome, [req0, req1, req2])

/-- Request body of `Dynamo.info` (dynamo.ts:279-292). -/
def infoBodyJson (target : GraphTarget) : Json :=
  .obj [("target", target.toJson),
        ("data", .obj [("metadata", .bool true), ("issues", .bool true),
                       ("status", .bool true), ("inputs", .bool true),
                       ("outputs", .bool true), ("dependencies", .bool true)])]

/-- Embeds `Dynamo.info` (dynamo.ts:278-300): POST the info body through
`_fetch`; a 200 response resolves with the parsed body, any other status
throws a `FetchError` whose message is the body's `title` when that is a
non-empty string (JS `body?.title || response.statusText`: a falsy title —
absent or the empty string — falls back to the status text) and whose status
is the HTTP status.  Also returns the single issued request. -/
def infoT (cl : DynamoClient) (target : GraphTarget) (resp : HttpResponse) :
    Except FetchError Json × HttpRequest :=
  let req := mkFetchReq cl.authProvider (cl.url ++ "/v1/graph/info")
    (some { method := "POST", body := some (Json.encode (infoBodyJson target)) })
  if resp.status = 200 then
    (.ok resp.body, req)
  else
    let title :=
      match resp.body.getField "title" with
      | some (.str t) => if t = "" then resp.statusText else t
      | _ => resp.statusText
    (.error { message := title, status := resp.status }, req)

/-- Embeds `Dynamo.serverInfo` (dynamo.ts:312-315): `this._fetch(url)` is
called without an options object, so `_fetch`'s guard `authProvider && init`
is false and no Authorization header is injected. -/
def serverInfoT (cl : DynamoClient) (resp : HttpResponse) : Json × HttpRequest :=
  let req := mkFetchReq cl.authProvider (cl.url ++ "/v1/server-info") none
  (resp.body, req)

/-- Classification a `useScript` caller applies to a load failure
(LocalScript.tsx:93-99): exactly a status-500 error with message
`"Graph is not trusted."` becomes the recoverable untrusted-graph state, any
other failure is surfaced generically. -/
inductive ScriptLoadError where
  | graphNotTrusted
  | generic (message : String)
deriving DecidableEq, Repr

def classifyScriptError (err : FetchError) : ScriptLoadError :=
  if err.status = 500 ∧ err.message = "Graph is not trusted." then .graphNotTrusted
  else .generic err.message

/-- Rendering of an optional JS value inside an object under `JSON.stringify`.
JS drops `undefined`-valued fields while this model keeps the key with `null`;
no claim under verification depends on that difference. -/
def optJson {α : Type} (o : Option α) (f : α → Json) : Json :=
  match o with
  | none => Json.null
  | some a => f a

/-- Wire rendering of an element snapshot as the SDK delivers it: urn plus
`children: [{key, urn}]` references (representation payloads are elided; no
claim inspects them). -/
def elementToJson (e : Element) : Json :=
  .obj [("urn", .str e.urn),
        ("children", .arr (e.children.map (fun c =>
          .obj [("key", .str c.1), ("urn", .str c.2.urn)])))]

/-- Wire rendering of a triangle buffer (`[...triangles]`). -/
def trianglesToJson (triangles : List Int) : Json :=
  .arr (triangles.map .num)

/-- Wire rendering of footprint rings (`polygon.coordinates`). -/
def ringsToJson (rings : List (List (Int × Int))) : Json :=
  .arr (rings.map (fun ring => .arr (ring.map (fun pt => .arr [.num pt.1, .num pt.2]))))

/-- Wire rendering of a 2.5D volume feature. -/
def featureToJson (f : Volume25D) : Json :=
  .obj [("id", .str f.id),
        ("properties", .obj [("height", .num f.properties.height),
                             ("elevation", optJson f.properties.elevation .num)]),
        ("geometry", .obj [("coordinates", ringsToJson f.geometry.coordinates)])]

/-- Wire rendering of a feature collection. -/
def fcToJson (fc : FeatureCollection) : Json :=
  .obj [("type", .str fc.type), ("features", .arr (fc.features.map featureToJson))]

/-- Embeds `readElementsByPaths` (LocalScript.tsx:226-255).  The source issues
four index-aligned batch fetches (elements, triangles, footprints, volume
collections) and zips them positionally into one bundle per path; because
every batch is `paths.map` of a per-path fetch, the zip equals the per-path
bundle built below.  Absent triangles/footprints/element are not errors
(`undefined` in the bundle); a failure inside `getVolume25DForSubTree` aborts
the whole call. -/
def readElementsByPaths (env : FormaEnv) (paths : List String) :
    Except String (List Json) :=
  paths.mapM (fun path => do
    let volume25DCollection ← getVolume25DForSubTree env path
    pure (Json.obj
      [("element", optJson (env.getByPath path) elementToJson),
       ("triangles", optJson (env.getTriangles path) trianglesToJson),
       ("footprints", optJson (env.getFootprint path) ringsToJson),
       ("volume25DCollection", fcToJson volume25DCollection)]))

/-- Numeric bounds and dropdown options of an input (dynamo.ts:52-57). -/
structure NodeTypeProperties where
  options : List String
  minimumValue : Int
  maximumValue : Int
  stepValue : Int
deriving DecidableEq, Repr

/-- Embeds the `Input` type of `dynamo.ts:47-58`; `onRun` destructures only
`{id, type, name}`. -/
structure Input where
  id : String
  name : String
  type : String
  value : String
  nodeTypeProperties : NodeTypeProperties

/-- Models `(value || []) as string[]` on a UI-held value: an array yields its
string entries, anything falsy or absent yields the empty list. -/
def jsonPaths (v : Json) : List String :=
  match v with
  | .arr xs => xs.filterMap (fun x => match x with | .str s => some s | _ => none)
  | _ => []

/-- Models `value as string[]` without the `|| []` guard: calling `.map` on a
non-array (for example the absent value) throws. -/
def jsonPathsStrict (v : Json) : Except String (List String) :=
  match v with
  | .arr xs => .ok (xs.filterMap (fun x => match x with | .str s => some s | _ => none))
  | _ => .error "TypeError: value.map is not a function"

/-- Per-path triangle fetches of the `Triangles`/`FormaSelectGeometry` branch
(`[...(await Forma.geometry.getTriangles({urn, path}))]` per selected path);
an absent buffer makes the source spread `undefined` and throw. -/
def trianglesForPaths (env : FormaEnv) (paths : List String) : Except String (List Json) :=
  paths.mapM (fun path =>
    match env.getTriangles path with
    | none => .error "TypeError: triangles are undefined"
    | some t => .ok (trianglesToJson t))

/-- Per-path footprint fetches of the `Footprint`/`FormaSelectFootprints`
branch (`[...(await Forma.geometry.getFootprint({urn, path})).coordinates]`);
an absent polygon makes the source dereference `undefined` and throw. -/
def footprintsForPaths (env : FormaEnv) (paths : List String) : Except String (List Json) :=
  paths.mapM (fun path =>
    match env.getFootprint path with
    | none => .error "TypeError: footprint is undefined"
    | some rings => .ok (ringsToJson rings))

/-- JS object insert-or-overwrite (`elementMap[element.urn] = ...`): an
existing key keeps its position and gets the new value, a fresh key is
appended. -/
def upsertField (fs : List (String × Json)) (k : String) (v : Json) :
    List (String × Json) :=
  if fs.any (fun f => f.1 = k) then fs.map (fun f => if f.1 = k then (k, v) else f)
  else fs ++ [(k, v)]

/-- Embeds the per-input extraction dispatch of `onRun`
(LocalScript.tsx:349-477): each declared input is mapped, by type tag or
declared name, to an extraction strategy whose result is JSON-encoded into the
wire pair's `value`; an input matching none of the branches falls through to
`{nodeId: id, value}` with the UI-held value passed through unchanged.  Every
branch mirrors the corresponding source branch in order.  Lookups the source
would dereference on `undefined` are errors here; the urn of a path whose
element is missing prints as `"undefined"`, as JS string interpolation
would.  The `GetTerrain` branch stringifies `elements[0]`: with no terrain
path that argument is `undefined` and `JSON.stringify(undefined)` is the JS
value `undefined` (`Json.undef`), not a string. -/
def materializeInput (env : FormaEnv) (state : String → Json) (inp : Input) :
    Except String RunInput :=
  let value := state inp.id
  if inp.type = "SelectElementsExperimental" then
    let paths := jsonPaths value
    let elements := paths.map (fun path =>
      (((env.getByPath path).map Element.urn).getD "undefined",
        if path = "root" then identityTransform else env.getWorldTransform path))
    let elementMap := elements.foldl (fun m el => upsertField m el.1 (transformToJson el.2)) []
    .ok { nodeId := inp.id
          value := .str (Json.encode (.obj
            [("elements", .obj elementMap), ("region", .str env.region)])) }
  else if inp.type = "GetAllElementsExperimental" then
    .ok { nodeId := inp.id
          value := .str (Json.encode (.obj
            [("urn", .str env.rootUrn), ("region", .str env.region)])) }
  else if inp.type = "GetProjectExperimental" then
    .ok { nodeId := inp.id
          value := .str (Json.encode (.obj
            [("projectId", .str env.projectId), ("region", .str env.region)])) }
  else if inp.type = "GetTerrainExperimental" then
    let path := (env.pathsByCategory "terrain").headD "undefined"
    match env.getByPath path with
    | none => .error "TypeError: element is undefined"
    | some element =>
        let transform := env.getWorldTransform path
        .ok { nodeId := inp.id
              value := .str (Json.encode (.obj
                [("elements", .obj [(element.urn, transformToJson transform)]),
                 ("region", .str env.region)])) }
  else if inp.type = "FormaSelectElements" ∨ inp.type = "FormaSelectElement"
      ∨ inp.type = "SelectElements" then
    (readElementsByPaths env (jsonPaths value)).map (fun elements =>
      { nodeId := inp.id, value := .str (Json.encode (.arr elements)) })
  else if inp.name = "GetFormaElements" ∨ inp.type = "GetAllElements" then
    (readElementsByPaths env (getAllPaths env)).map (fun elements =>
      { nodeId := inp.id, value := .str (Json.encode (.arr elements)) })
  else if inp.type = "FormaTerrain" then
    let path := (env.pathsByCategory "terrain").headD "undefined"
    match env.getTriangles path with
    | none => .error "TypeError: triangles are undefined"
    | some triangles =>
        .ok { nodeId := inp.id
              value := .str (Json.encode (.arr [trianglesToJson triangles])) }
  else if inp.type = "GetTerrain" then
    (readElementsByPaths env (env.pathsByCategory "terrain")).map (fun elements =>
      match elements.head? with
      | some element0 => { nodeId := inp.id, value := .str (Json.encode element0) }
      | none => { nodeId := inp.id, value := Json.undef })
  else if inp.type = "FormaProject" ∨ inp.type = "GetProject" then
    .ok { nodeId := inp.id, value := .str (Json.encode env.projectData) }
  else if inp.name = "Triangles" ∨ inp.type = "FormaSelectGeometry" then
    (jsonPathsStrict value).bind (fun paths =>
      (trianglesForPaths env paths).map (fun ts =>
        { nodeId := inp.id, value := .str (Json.encode (.arr ts)) }))
  else if inp.name = "Footprint" ∨ inp.type = "FormaSelectFootprints" then
    (jsonPathsStrict value).bind (fun paths =>
      (footprintsForPaths env paths).map (fun fs =>
        { nodeId := inp.id, value := .str (Json.encode (.arr fs)) }))
  else if inp.name = "Metrics" ∨ inp.type = "FormaSelectMetrics"
      ∨ inp.type = "SelectMetrics" then
    (jsonPathsStrict value).map (fun paths =>
      { nodeId := inp.id, value := .str (Json.encode (env.areaMetrics paths)) })
  else
    .ok { nodeId := inp.id, value := value }

/-- An input matches one of the recognized extraction strategies of
`materializeInput` (the disjunction of every branch condition, in source
order). -/
def recognizedInput (inp : Input) : Bool :=
  inp.type = "SelectElementsExperimental"
    ∨ inp.type = "GetAllElementsExperimental"
    ∨ inp.type = "GetProjectExperimental"
    ∨ inp.type = "GetTerrainExperimental"
    ∨ inp.type = "FormaSelectElements" ∨ inp.type = "FormaSelectElement"
    ∨ inp.type = "SelectElements"
    ∨ inp.name = "GetFormaElements" ∨ inp.type = "GetAllElements"
    ∨ inp.type = "FormaTerrain"
    ∨ inp.type = "GetTerrain"
    ∨ inp.type = "FormaProject" ∨ inp.type = "GetProject"
    ∨ inp.name = "Triangles" ∨ inp.type = "FormaSelectGeometry"
    ∨ inp.name = "Footprint" ∨ inp.type = "FormaSelectFootprints"
    ∨ inp.name = "Metrics" ∨ inp.type = "FormaSelectMetrics"
    ∨ inp.type = "SelectMetrics"

/-- Discriminates the JSON-string values among wire values. -/
def Json.isStr : Json → Bool
  | .str _ => true
  | _ => false

/-- A subtree contributes no volume features: no visited node yields a
feature after representation resolution and filtering — at every node either
the representation resolves to no collection, or it resolves to a collection
whose selection predicate builds and filters every feature out (which covers
collections that are already empty). -/
inductive NoVolumeContribution (env : FormaEnv) : Element → Prop
  | mk {e : Element}
      (hnode : loadVolume25Collection env e.volume25DCollection = none
        ∨ ∃ (collection : Volume25DCollection) (p : String → Bool),
            loadVolume25Collection env e.volume25DCollection = some collection
            ∧ createSelectionPredicate
                ((e.volume25DCollection.map (fun rep => rep.selection)).getD none) = .ok p
            ∧ collection.features.filter (fun f => p f.id) = [])
      (hrec : ∀ c ∈ e.children, NoVolumeContribution env c.2) :
      NoVolumeContribution env e

/-- Concrete client used by the scenario theorems: a base url plus a
configured token provider. -/
def sampleClient : DynamoClient :=
  { url := "https://service.dynamo", authProvider := some "Bearer tok" }

/-- The run result embedded in the third poll response of the async-run
scenario. -/
def scenarioEmbeddedRun : Run :=
  { info := { id := "r1", issues := [], name := "graph", outputs := [], status := "SUCCESS" } }

def scenarioResultJson : Json :=
  .obj [("info", .obj [("id", .str "r1"), ("issues", .arr []), ("name", .str "graph"),
                       ("outputs", .arr []), ("status", .str "SUCCESS")])]

/-- Response oracle of the async-run scenario: job creation succeeds with
`{jobId:"j1", uploadUrl:"https://x"}`, upload and trigger return 200, and the
job-results endpoint would answer RUNNING twice and then COMPLETE with
`scenarioResultJson` embedded. -/
def c3Env : Nat → HttpResponse := fun i =>
  if i = 0 then
    { status := 200, statusText := "OK"
      body := .obj [("jobId", .str "j1"), ("uploadUrl", .str "https://x")] }
  else if i = 1 then { status := 200, statusText := "OK", body := .null }
  else if i = 2 then { status := 200, statusText := "OK", body := .null }
  else if i = 3 ∨ i = 4 then
    { status := 200, statusText := "OK", body := .obj [("status", .str "RUNNING")] }
  else
    { status := 200, statusText := "OK"
      body := .obj [("status", .str "COMPLETE"), ("result", scenarioResultJson)] }

/-- A generic OK response for the single-request operations. -/
def sampleResp : HttpResponse :=
  { status := 200, statusText := "OK", body := .null }

/-- The untrusted-graph failure response of the `info` scenario. -/
def untrustedResp : HttpResponse :=
  { status := 500, statusText := "Internal Server Error"
    body := .obj [("title", .str "Graph is not trusted.")] }

/-- Transform with vertical scale 2 (entry 10) and vertical translation 5
(entry 14), zero elsewhere. -/
def c1Transform : Transform := fun i =>
  if i = (10 : Fin 16) then 2 else if i = (14 : Fin 16) then 5 else 0

def c1Feature : Volume25D :=
  { id := "f1", properties := { height := 10, elevation := some 3 }
    geometry := { coordinates := [[(1, 2)]] } }

def c1Tree : Element :=
  .mk "urnA" (some { payload := .embeddedJson { features := [c1Feature] }, selection := none }) []

/-- Feature without an elevation property, for the absent-elevation boundary. -/
def c5Feature : Volume25D :=
  { id := "f2", properties := { height := 7, elevation := none }
    geometry := { coordinates := [] } }

/-- Two-node subtree carrying no volume representation at all. -/
def c8Tree : Element :=
  .mk "urnB" none [("a", .mk "urnC" none [])]

/-- Single-node subtree whose embedded collection holds one feature that the
`equals` selection rule filters out entirely. -/
def c8FilteredTree : Element :=
  .mk "urnD"
    (some { payload := .embeddedJson { features := [c1Feature] }
            selection := some (.equals "other-id") }) []

/-- Generic Forma environment for concrete evaluations; the element snapshot
at `"root"` is selectable per scenario through `getByPath`. -/
def mkFormaEnv (root : Element) : FormaEnv :=
  { rootUrn := "urn:root"
    region := "EMEA"
    projectId := "pro_x"
    projectData := .null
    rootElement := root
    getByPath := fun path => if path = "root" then some root else none
    getWorldTransform := fun _ => c1Transform
    getTriangles := fun _ => none
    getFootprint := fun _ => none
    pathsByCategory := fun _ => []
    areaMetrics := fun _ => .null
    blobs := fun _ => { features := [] } }

def c1Env : FormaEnv := mkFormaEnv c1Tree

def c8Env : FormaEnv := mkFormaEnv c8Tree

def c8FilteredEnv : FormaEnv := mkFormaEnv c8FilteredTree

def defaultFormaEnv : FormaEnv := mkFormaEnv (.mk "urn:root" none [])

/-- Declared input whose type and name match no extraction strategy. -/
def c2Input : Input :=
  { id := "i1", name := "RunIt", type := "boolean", value := "true"
    nodeTypeProperties := { options := [], minimumValue := 0, maximumValue := 0, stepValue := 0 } }

/-- Declared input handled by the `GetAllElementsExperimental` strategy. -/
def c2RecognizedInput : Input :=
  { id := "i2", name := "Site", type := "GetAllElementsExperimental", value := ""
    nodeTypeProperties := { options := [], minimumValue := 0, maximumValue := 0, stepValue := 0 } }

/-- Declared input handled by the `GetTerrain` strategy (its name matches no
name-based branch). -/
def c2TerrainInput : Input :=
  { id := "i3", name := "Terrain", type := "GetTerrain", value := ""
    nodeTypeProperties := { options := [], minimumValue := 0, maximumValue := 0, stepValue := 0 } }

/-- UI state holding a boolean for input `i1`. -/
def c2State : String → Json := fun id => if id = "i1" then .bool true else .null

/-- Depth-3, branching-2 element tree for the path-enumeration witness. -/
def c6Tree : Element :=
  .mk "u0" none
    [("a", .mk "u1" none [("c", .mk "u3" none []), ("d", .mk "u4" none [])]),
     ("b", .mk "u2" none [("e", .mk "u5" none []), ("f", .mk "u6" none [])])]

/-- Number of requests in a trace that target the job-results (polling)
endpoint of the client's service. -/
def resultsUrlCount (cl : DynamoClient) (trace : List HttpRequest) : Nat :=
  (trace.filter (fun req =>
    (cl.url ++ "/v1/graph/results").data.isPrefixOf req.url.data)).length

theorem hasHeader_append_auth (hs : List (String × String)) (token : String) :
    hasHeader (hs ++ [("Authorization", token)]) "Authorization" = true := by
  simp [hasHeader, List.any_append]

theorem mkFetchReq_auth (token url : String) (init : RequestInit') :
    hasHeader (mkFetchReq (some token) url (some init)).headers "Authorization" = true := by
  unfold mkFetchReq
  by_cases hh : hasHeader init.headers "Authorization"
  · simp [hh]
  · simp only [hh, Bool.false_eq_true, if_false]
    exact hasHeader_append_auth init.headers token

theorem runAsyncT_trace (cl : DynamoClient) (target : GraphTarget)
    (inputs : List RunInput) (env : Nat → HttpResponse) (h0 : (env 0).status = 200) :
    (runAsyncT cl target inputs env).2 =
      [mkFetchReq cl.authProvider (cl.url ++ "/v1/graph/job/create") (some { method := "GET" }),
       { url := (env 0).body.strFieldD "uploadUrl" "undefined", method := "PUT", headers := []
         body := some (Json.encode (uploadBodyJson target inputs)) },
       mkFetchReq cl.authProvider
         (cl.url ++ "/v1/graph/job/" ++ (env 0).body.strFieldD "jobId" "undefined"
           ++ "/run?passtoken=1") (some { method := "POST" })] := by
  unfold runAsyncT
  by_cases h2 : (env 2).status = 200 <;> simp [h0, h2]

theorem runAsyncT_trace_fail (cl : DynamoClient) (target : GraphTarget)
    (inputs : List RunInput) (env : Nat → HttpResponse) (h0 : (env 0).status ≠ 200) :
    (runAsyncT cl target inputs env).2 =
      [mkFetchReq cl.authProvider (cl.url ++ "/v1/graph/job/create")
        (some { method := "GET" })] := by
  unfold runAsyncT
  simp [h0]

/-- C10: the async protocol never inspects the upload response — replacing the
response to request index 1 (the PUT to the upload url) by anything at all
changes neither the outcome nor the request trace of `runAsync`, and whenever
job creation succeeds the client still proceeds to issue the trigger request
(the third and last request of the trace). -/
theorem c10_upload_response_ignored (cl : DynamoClient) (target : GraphTarget)
    (inputs : List RunInput) (env : Nat → HttpResponse) (r : HttpResponse) :
    runAsyncT cl target inputs (fun i => if i = 1 then r else env i)
      = runAsyncT cl target inputs env
    ∧ ((env 0).status = 200 →
        ((runAsyncT cl target inputs env).2.length = 3
          ∧ (runAsyncT cl target inputs env).2.getLast? = some (mkFetchReq cl.authProvider
              (cl.url ++ "/v1/graph/job/" ++ (env 0).body.strFieldD "jobId" "undefined"
                ++ "/run?passtoken=1") (some { method := "POST" })))) := by
  constructor
  · simp only [runAsyncT]
    norm_num
  · intro h
    rw [runAsyncT_trace cl target inputs env h]
    constructor
    · rfl
    · rfl

/-- Closed witness for `c10_upload_response_ignored` at the scenario
environment. -/
theorem c10_witness :
    (c3Env 0).status = 200
    ∧ ((runAsyncT sampleClient .currentTarget [] c3Env).2.length = 3
        ∧ (runAsyncT sampleClient .currentTarget [] c3Env).2.getLast?
            = some (mkFetchReq sampleClient.authProvider
                (sampleClient.url ++ "/v1/graph/job/"
                  ++ (c3Env 0).body.strFieldD "jobId" "undefined"
                  ++ "/run?passtoken=1") (some { method := "POST" }))) :=
  ⟨rfl, (c10_upload_response_ignored sampleClient .currentTarget [] c3Env sampleResp).2 rfl⟩

set_option maxRecDepth 10000 in
/-- C3 (code bug): in the scenario where job creation returns
`{jobId:"j1", uploadUrl:"https://x"}`, the trigger returns 200 and the
job-results endpoint would answer RUNNING, RUNNING, COMPLETE-with-result, the
source's `runAsync` performs zero polls of the results endpoint (its polling
fetch is commented out), issues only the three create/upload/trigger
requests, and resolves with the hardcoded job literal — not with the embedded
scenario result the claim requires. -/
theorem c3_code_evaluation :
    (runAsyncT sampleClient .currentTarget [] c3Env).1 = .ok hardcodedJob.result
    ∧ (runAsyncT sampleClient .currentTarget [] c3Env).2.length = 3
    ∧ resultsUrlCount sampleClient (runAsyncT sampleClient .currentTarget [] c3Env).2 = 0
    ∧ hardcodedJob.result ≠ scenarioEmbeddedRun := by
  refine ⟨rfl, ?_, ?_, ?_⟩
  · rw [runAsyncT_trace sampleClient .currentTarget [] c3Env rfl]
    rfl
  · rw [resultsUrlCount, runAsyncT_trace sampleClient .currentTarget [] c3Env rfl]
    rfl
  · intro hEq
    have hst := congrArg (fun r => r.info.status) hEq
    simp [hardcodedJob, scenarioEmbeddedRun] at hst

/-- C9 (counterexample): with a token provider configured, the server-info GET
is issued without an Authorization header (the source calls `_fetch` without
an options object) and so is the upload PUT (the source uses plain `fetch`),
while the job-create request does carry the header — refuting the claim that
every outgoing request carries one. -/
theorem c9_counterexample :
    sampleClient.authProvider = some "Bearer tok"
    ∧ hasHeader (serverInfoT sampleClient sampleResp).2.headers "Authorization" = false
    ∧ ((runAsyncT sampleClient .currentTarget [] c3Env).2[1]?).map
        (fun req => hasHeader req.headers "Authorization") = some false
    ∧ ((runAsyncT sampleClient .currentTarget [] c3Env).2[0]?).map
        (fun req => hasHeader req.headers "Authorization") = some true :=
  ⟨rfl, rfl, rfl, rfl⟩

/-- C9 (amended): whenever a token provider is configured, every request the
client issues through `_fetch` with an options object carries an
Authorization header unless one is already present (job create and trigger,
and the graph-info POST), an already-present header is left untouched, while
the upload PUT (plain `fetch`) and the server-info GET (`_fetch` without an
options object) are sent without the header. -/
theorem c9_amended (cl : DynamoClient) (token : String) (target : GraphTarget)
    (inputs : List RunInput) (env : Nat → HttpResponse) (resp : HttpResponse)
    (hauth : cl.authProvider = some token) :
    ((runAsyncT cl target inputs env).2[0]?).map
        (fun req => hasHeader req.headers "Authorization") = some true
    ∧ ((env 0).status = 200 →
        (((runAsyncT cl target inputs env).2[1]?).map
            (fun req => hasHeader req.headers "Authorization") = some false
          ∧ ((runAsyncT cl target inputs env).2[2]?).map
            (fun req => hasHeader req.headers "Authorization") = some true))
    ∧ hasHeader (infoT cl target resp).2.headers "Authorization" = true
    ∧ hasHeader (serverInfoT cl resp).2.headers "Authorization" = false
    ∧ (∀ (url : String) (init : RequestInit'),
        hasHeader init.headers "Authorization" = true →
          (mkFetchReq cl.authProvider url (some init)).headers = init.headers) := by
  refine ⟨?_, ?_, ?_, ?_, ?_⟩
  · by_cases h0 : (env 0).status = 200
    · rw [runAsyncT_trace cl target inputs env h0, hauth]
      simp only [List.getElem?_cons_zero, Option.map_some']
      exact congrArg some (mkFetchReq_auth token _ _)
    · rw [runAsyncT_trace_fail cl target inputs env h0, hauth]
      simp only [List.getElem?_cons_zero, Option.map_some']
      exact congrArg some (mkFetchReq_auth token _ _)
  · intro h0
    rw [runAsyncT_trace cl target inputs env h0, hauth]
    constructor
    · rfl
    · simp only [List.getElem?_cons_succ, List.getElem?_cons_zero, Option.map_some']
      exact congrArg some (mkFetchReq_auth token _ _)
  · by_cases hr : resp.status = 200 <;>
      · simp only [infoT, hr, if_true, if_false, hauth]
        exact mkFetchReq_auth token _ _
  · simp [serverInfoT, mkFetchReq, hasHeader]
  · intro url init hinit
    simp [mkFetchReq, hauth, hinit]

/-- Closed witness for `c9_amended` at the sample client and scenario
environment. -/
theorem c9_witness :
    sampleClient.authProvider = some "Bearer tok"
    ∧ (((runAsyncT sampleClient .currentTarget [] c3Env).2[0]?).map
        (fun req => hasHeader req.headers "Authorization") = some true
      ∧ ((c3Env 0).status = 200 →
          (((runAsyncT sampleClient .currentTarget [] c3Env).2[1]?).map
              (fun req => hasHeader req.headers "Authorization") = some false
            ∧ ((runAsyncT sampleClient .currentTarget [] c3Env).2[2]?).map
              (fun req => hasHeader req.headers "Authorization") = some true))
      ∧ hasHeader (infoT sampleClient .currentTarget sampleResp).2.headers "Authorization" = true
      ∧ hasHeader (serverInfoT sampleClient sampleResp).2.headers "Authorization" = false
      ∧ (∀ (url : String) (init : RequestInit'),
          hasHeader init.headers "Authorization" = true →
            (mkFetchReq sampleClient.authProvider url (some init)).headers = init.headers)) :=
  ⟨rfl, c9_amended sampleClient "Bearer tok" .currentTarget [] c3Env sampleResp rfl⟩

/-- C4: a non-200 `info` response makes the client throw a `FetchError`
carrying the HTTP status and the body's title (falling back to the status
text when the title is absent), and the caller classifies that failure as the
recoverable untrusted-graph condition precisely when the status is 500 and
the message is exactly `"Graph is not trusted."`. -/
theorem c4_untrusted_error_classification (cl : DynamoClient) (target : GraphTarget)
    (resp : HttpResponse) (h : resp.status ≠ 200) :
    ∃ e : FetchError,
      (infoT cl target resp).1 = .error e
      ∧ e.status = resp.status
      ∧ (∀ t, resp.body.getField "title" = some (.str t) → t ≠ "" → e.message = t)
      ∧ (resp.body.getField "title" = none → e.message = resp.statusText)
      ∧ (classifyScriptError e = .graphNotTrusted ↔
           (resp.status = 500 ∧ e.message = "Graph is not trusted.")) := by
  refine ⟨{ message := (match resp.body.getField "title" with
                        | some (.str t) => if t = "" then resp.statusText else t
                        | _ => resp.statusText)
            status := resp.status }, ?_, rfl, ?_, ?_, ?_⟩
  · simp [infoT, h]
  · intro t ht hne
    simp [ht, hne]
  · intro ht
    simp [ht]
  · unfold classifyScriptError
    by_cases hc : resp.status = 500 ∧ (match resp.body.getField "title" with
                        | some (.str t) => if t = "" then resp.statusText else t
                        | _ => resp.statusText) = "Graph is not trusted."
    · simp [hc]
    · simp only [if_neg hc]
      constructor
      · intro hgen
        cases hgen
      · intro hcc
        exact absurd hcc hc

/-- Closed witness for `c4_untrusted_error_classification` at the 500
untrusted-graph response. -/
theorem c4_witness :
    untrustedResp.status ≠ 200
    ∧ ∃ e : FetchError,
        (infoT sampleClient .currentTarget untrustedResp).1 = .error e
        ∧ e.status = untrustedResp.status
        ∧ (∀ t, untrustedResp.body.getField "title" = some (.str t) → t ≠ "" → e.message = t)
        ∧ (untrustedResp.body.getField "title" = none → e.message = untrustedResp.statusText)
        ∧ (classifyScriptError e = .graphNotTrusted ↔
             (untrustedResp.status = 500 ∧ e.message = "Graph is not trusted.")) :=
  ⟨by decide,
   c4_untrusted_error_classification sampleClient .currentTarget untrustedResp (by decide)⟩

theorem isPrefixOf_iff_exists (l1 l2 : List Char) :
    l1.isPrefixOf l2 = true ↔ ∃ t, l2 = l1 ++ t := by
  induction l1 generalizing l2 with
  | nil => simp [List.isPrefixOf]
  | cons a as ih =>
    cases l2 with
    | nil => simp [List.isPrefixOf]
    | cons b bs =>
      simp only [List.isPrefixOf, Bool.and_eq_true, ih, List.cons_append, List.cons.injEq]
      constructor
      · rintro ⟨hab, t, ht⟩
        exact ⟨t, by simpa using (beq_iff_eq.mp hab).symm, ht⟩
      · rintro ⟨t, hab, ht⟩
        exact ⟨beq_iff_eq.mpr hab.symm, t, ht⟩

/-- C7: the predicate built from `equals(v)` accepts exactly `v`; the one
built from `startsWith` accepts exactly the ids beginning with the rule's
value (in particular `startsWith("ab")` accepts `"abc"` and rejects
`"xab"`); the match-all rule (absent selection) accepts everything; and an
unrecognized rule kind makes `createSelectionPredicate` throw. -/
theorem c7_selection_predicate (v x : String) :
    (∃ p, createSelectionPredicate (some (.equals v)) = .ok p ∧ (p x = true ↔ x = v))
    ∧ (∃ p, createSelectionPredicate (some (.startsWith v)) = .ok p
        ∧ (p x = true ↔ ∃ t, x.data = v.data ++ t))
    ∧ (∃ p, createSelectionPredicate (some (.startsWith "ab")) = .ok p
        ∧ p "abc" = true ∧ p "xab" = false)
    ∧ (∃ p, createSelectionPredicate none = .ok p ∧ p x = true)
    ∧ (∃ e, createSelectionPredicate (some (.unrecognized v)) = .error e) := by
  refine ⟨⟨_, rfl, ?_⟩, ⟨_, rfl, ?_⟩, ⟨_, rfl, by decide, by decide⟩, ⟨_, rfl, rfl⟩, ⟨_, rfl⟩⟩
  · exact decide_eq_true_iff
  · exact isPrefixOf_iff_exists v.data x.data

/-- C5: a feature with an absent elevation gets transformed elevation exactly
the vertical translation term `transform[14]` — the scale term multiplies the
defaulted zero and leaves no contribution
(`(elevation ?? 0 * transform[10]) + transform[14]` with `elevation`
absent). -/
theorem c5_absent_elevation_is_translation (transform : Transform) (feature : Volume25D)
    (h : feature.properties.elevation = none) :
    (transformVolume25D transform feature).properties.elevation = some (transform 14) := by
  simp [transformVolume25D, h]

/-- Closed witness for `c5_absent_elevation_is_translation` with vertical
scale 2 and vertical translation 5. -/
theorem c5_witness :
    c5Feature.properties.elevation = none
    ∧ c1Transform 10 = 2 ∧ c1Transform 14 = 5
    ∧ (transformVolume25D c1Transform c5Feature).properties.elevation = some (c1Transform 14) :=
  ⟨rfl, rfl, rfl, c5_absent_elevation_is_translation c1Transform c5Feature rfl⟩

/-- C1 (code bug): evaluating the volume-collection loader on a single node
whose embedded collection holds one feature with elevation 3, under a
transform with vertical scale 2 (entry 10) and vertical translation 5
(entry 14), yields elevation `3 + 5 = 8`: the source expression
`(feature.properties.elevation ?? 0 * transform[10]) + transform[14]`
applies the scale to the literal zero, so the result differs from the
specified `scale * elevation + translation = 2 * 3 + 5 = 11`. -/
theorem c1_code_evaluation :
    getVolume25DForSubTree c1Env "root"
      = .ok { type := "FeatureCollection"
              features := [{ id := "f1"
                             properties := { height := 20, elevation := some 8 }
                             geometry := { coordinates := [[(0, 0)]] } }] }
    ∧ (8 : Int) ≠ c1Transform 10 * 3 + c1Transform 14 := by
  constructor
  · simp [getVolume25DForSubTree, c1Env, mkFormaEnv, c1Tree, volumeWalk,
      loadVolume25Collection, createSelectionPredicate, transformVolume25D,
      transformCoordinates, Element.children, Element.volume25DCollection, c1Feature,
      c1Transform, Except.map]
  · decide

theorem mem_foldl_cons {x : String × Element} {cs : List (String × Element)}
    {rest : List (String × Element)} {p : String}
    (hx : x ∈ cs.foldl (fun s c => (p ++ "/" ++ c.1, c.2) :: s) rest) :
    (∃ c ∈ cs, x = (p ++ "/" ++ c.1, c.2)) ∨ x ∈ rest := by
  induction cs generalizing rest with
  | nil => exact .inr hx
  | cons c cs ih =>
    simp only [List.foldl_cons] at hx
    rcases ih hx with h | h
    · rcases h with ⟨d, hd, hxd⟩
      exact .inl ⟨d, List.mem_cons_of_mem _ hd, hxd⟩
    · rcases List.mem_cons.mp h with h | h
      · exact .inl ⟨c, List.mem_cons_self _ _, h⟩
      · exact .inr h

theorem volumeWalk_no_contribution (env : FormaEnv) (n : Nat) :
    ∀ (stack : List (String × Element)) (acc : List FeatureCollection),
      stackMeasure stack ≤ n →
      (∀ pe ∈ stack, NoVolumeContribution env pe.2) →
      ∃ collections, volumeWalk env stack acc = .ok collections
        ∧ ∀ fc ∈ collections, fc ∈ acc ∨ fc.features = [] := by
  induction n with
  | zero =>
    intro stack acc hm hall
    cases stack with
    | nil => exact ⟨acc, by simp [volumeWalk], fun fc hfc => .inl hfc⟩
    | cons pe rest =>
      exfalso
      have := Element.size_pos pe.2
      rw [stackMeasure_cons] at hm
      omega
  | succ n ih =>
    intro stack acc hm hall
    cases stack with
    | nil => exact ⟨acc, by simp [volumeWalk], fun fc hfc => .inl hfc⟩
    | cons pe rest =>
      obtain ⟨path, element⟩ := pe
      have hno := hall _ (List.mem_cons_self _ _)
      have hnode := by
        cases hno with
        | mk hnode hrec => exact hnode
      have hrec : ∀ c ∈ element.children, NoVolumeContribution env c.2 := by
        cases hno with
        | mk hnode hrec => exact hrec
      have hmeas : stackMeasure (element.children.foldl
          (fun s c => (path ++ "/" ++ c.1, c.2) :: s) rest) ≤ n := by
        cases element with
        | mk u r cs =>
          have hm2 : (Element.mk u r cs).size + stackMeasure rest ≤ n + 1 := by
            simpa [stackMeasure_cons] using hm
          rw [Element.children, stackMeasure_foldl]
          have hsz : Element.sizeChildren cs < (Element.mk u r cs).size :=
            Element.sizeChildren_lt_size u r cs
          omega
      have hstack : ∀ qe ∈ element.children.foldl
          (fun s c => (path ++ "/" ++ c.1, c.2) :: s) rest,
          NoVolumeContribution env qe.2 := by
        intro qe hq
        rcases mem_foldl_cons hq with ⟨c, hc, hqc⟩ | hq
        · subst hqc
          exact hrec c hc
        · exact hall _ (List.mem_cons_of_mem _ hq)
      rcases hnode with hrep | ⟨collection, p, hload, hpred, hfilt⟩
      · rw [volumeWalk]
        simp only [hrep]
        exact ih _ acc hmeas hstack
      · rw [volumeWalk]
        simp only [hload, hpred, hfilt, List.map_nil]
        obtain ⟨cols, hw, hprop⟩ := ih _
          (acc ++ [{ type := "FeatureCollection", features := [] }]) hmeas hstack
        refine ⟨cols, hw, ?_⟩
        intro fc hfc
        rcases hprop fc hfc with hmem | hempty
        · rcases List.mem_append.mp hmem with hmem2 | hmem2
          · exact .inl hmem2
          · right
            have hfc2 : fc = { type := "FeatureCollection", features := [] } := by
              simpa using hmem2
            rw [hfc2]
        · exact .inr hempty

/-- C8 (counterexample): on a two-node subtree carrying no volume
representation at all, the loader returns an actual feature collection — the
`FeatureCollection`-tagged value with an empty feature list — and not the
absence of a collection the claim requires. -/
theorem c8_counterexample :
    getVolume25DForSubTree c8Env "root"
      = .ok { type := "FeatureCollection", features := [] } := by
  simp [getVolume25DForSubTree, c8Env, mkFormaEnv, c8Tree, volumeWalk,
    loadVolume25Collection, Element.children, Element.volume25DCollection, Except.map]

/-- C8 (amended): for every requested path whose subtree contributes no
volume features, the loader still returns a feature collection — the
`FeatureCollection`-tagged value with an empty feature list — never the
absence of a collection. -/
theorem c8_amended (env : FormaEnv) (path : String) (element : Element)
    (hp : env.getByPath path = some element)
    (h : NoVolumeContribution env element) :
    getVolume25DForSubTree env path = .ok { type := "FeatureCollection", features := [] } := by
  obtain ⟨cols, hw, hprop⟩ := volumeWalk_no_contribution env
    (stackMeasure [(path, element)]) [(path, element)] [] le_rfl
    (by intro pe hpe; simp at hpe; rw [hpe]; exact h)
  have hfeat : (cols.map (fun fc => fc.features)).flatten = [] := by
    rw [List.flatten_eq_nil_iff]
    intro l hl
    obtain ⟨fc, hfc, rfl⟩ := List.mem_map.mp hl
    rcases hprop fc hfc with hmem | hempty
    · cases hmem
    · exact hempty
  rw [getVolume25DForSubTree, hp]
  simp [hw, Except.map, hfeat]

/-- Closed witness for `c8_amended` at a subtree whose only node resolves to
an embedded collection that the selection rule filters to nothing. -/
theorem c8_witness :
    c8FilteredEnv.getByPath "root" = some c8FilteredTree
    ∧ getVolume25DForSubTree c8FilteredEnv "root"
        = .ok { type := "FeatureCollection", features := [] } :=
  ⟨rfl, c8_amended c8FilteredEnv "root" c8FilteredTree rfl
    (NoVolumeContribution.mk
      (Or.inr ⟨{ features := [c1Feature] }, fun value => value = "other-id",
        rfl, rfl, by decide⟩)
      (by intro c hc; simp [c8FilteredTree, Element.children] at hc))⟩

/-- C2 (counterexample): a declared input of type `"boolean"` matches no
extraction strategy, and the materializer's fall-through passes the UI-held
boolean through unchanged — the produced pair's value is the raw JSON boolean
`true`, not a JSON-encoded string. -/
theorem c2_counterexample :
    recognizedInput c2Input = false
    ∧ materializeInput defaultFormaEnv c2State c2Input
        = .ok { nodeId := "i1", value := .bool true }
    ∧ (materializeInput defaultFormaEnv c2State c2Input).map
        (fun pair => pair.value.isStr) = .ok false := by
  refine ⟨by decide, rfl, rfl⟩

/-- Reduction of the materializer at a `GetTerrain` input whose name matches
no name-based branch: the terrain bundle list is fetched and `elements[0]` is
stringified — the JS undefined value when the list is empty. -/
theorem materializeInput_getTerrain (env : FormaEnv) (state : String → Json)
    (inp : Input) (htype : inp.type = "GetTerrain")
    (hname : inp.name ≠ "GetFormaElements") :
    materializeInput env state inp
      = (readElementsByPaths env (env.pathsByCategory "terrain")).map (fun elements =>
          match elements.head? with
          | some element0 => { nodeId := inp.id, value := .str (Json.encode element0) }
          | none => { nodeId := inp.id, value := Json.undef }) := by
  simp [materializeInput, htype, hname]

/-- C2 (amended): an input matching none of the recognized strategies is
passed through unchanged (its wire value is the raw UI-held value, not
necessarily a JSON-encoded string); every recognized strategy other than
`GetTerrain` produces a JSON-encoded string as the wire value; the
`GetTerrain` strategy produces either a JSON-encoded string or — when there
is no terrain path, because `JSON.stringify(undefined)` is `undefined` — the
JS undefined value, and with no terrain path it produces exactly that
undefined value; for the representative whole-model and project strategies
the encoded payload is exactly the logical value (`{urn, region}`, resp.
`{projectId, region}`), so decoding the wire string reproduces it. -/
theorem c2_amended :
    (∀ (env : FormaEnv) (state : String → Json) (inp : Input),
        recognizedInput inp = false →
          materializeInput env state inp = .ok { nodeId := inp.id, value := state inp.id })
    ∧ (∀ (env : FormaEnv) (state : String → Json) (inp : Input) (pair : RunInput),
        recognizedInput inp = true → inp.type ≠ "GetTerrain" →
          materializeInput env state inp = .ok pair →
          ∃ j, pair.value = .str (Json.encode j))
    ∧ (∀ (env : FormaEnv) (state : String → Json) (inp : Input) (pair : RunInput),
        inp.type = "GetTerrain" → inp.name ≠ "GetFormaElements" →
          materializeInput env state inp = .ok pair →
          (∃ j, pair.value = .str (Json.encode j)) ∨ pair.value = Json.undef)
    ∧ (∀ (env : FormaEnv) (state : String → Json) (inp : Input),
        inp.type = "GetTerrain" → inp.name ≠ "GetFormaElements" →
          env.pathsByCategory "terrain" = [] →
          materializeInput env state inp = .ok { nodeId := inp.id, value := Json.undef })
    ∧ (∀ (env : FormaEnv) (state : String → Json) (inp : Input),
        inp.type = "GetAllElementsExperimental" →
          materializeInput env state inp = .ok
            { nodeId := inp.id,
              value := .str (Json.encode (.obj
                [("urn", .str env.rootUrn), ("region", .str env.region)])) })
    ∧ (∀ (env : FormaEnv) (state : String → Json) (inp : Input),
        inp.type = "GetProjectExperimental" →
          materializeInput env state inp = .ok
            { nodeId := inp.id,
              value := .str (Json.encode (.obj
                [("projectId", .str env.projectId), ("region", .str env.region)])) }) := by
  refine ⟨?_, ?_, ?_, ?_, ?_, ?_⟩
  · intro env state inp h
    rw [recognizedInput, decide_eq_false_iff_not] at h
    push_neg at h
    obtain ⟨h1, h2, h3, h4, h5, h6, h7, h8, h9, h10, h11, h12, h13, h14, h15, h16, h17,
      h18, h19, h20⟩ := h
    simp only [materializeInput, h1, h2, h3, h4, h5, h6, h7, h8, h9, h10, h11, h12, h13,
      h14, h15, h16, h17, h18, h19, h20, if_false, or_self, ite_false, false_or, or_false,
      if_neg, not_false_eq_true]
  · intro env state inp pair hrec hngt hres
    simp only [materializeInput] at hres
    by_cases hc1 : inp.type = "SelectElementsExperimental"
    · rw [if_pos hc1] at hres
      cases hres
      exact ⟨_, rfl⟩
    rw [if_neg hc1] at hres
    by_cases hc2 : inp.type = "GetAllElementsExperimental"
    · rw [if_pos hc2] at hres
      cases hres
      exact ⟨_, rfl⟩
    rw [if_neg hc2] at hres
    by_cases hc3 : inp.type = "GetProjectExperimental"
    · rw [if_pos hc3] at hres
      cases hres
      exact ⟨_, rfl⟩
    rw [if_neg hc3] at hres
    by_cases hc4 : inp.type = "GetTerrainExperimental"
    · rw [if_pos hc4] at hres
      cases hby : env.getByPath ((env.pathsByCategory "terrain").headD "undefined") with
      | none => rw [hby] at hres; cases hres
      | some element =>
        rw [hby] at hres
        cases hres
        exact ⟨_, rfl⟩
    rw [if_neg hc4] at hres
    by_cases hc5 : inp.type = "FormaSelectElements" ∨ inp.type = "FormaSelectElement"
        ∨ inp.type = "SelectElements"
    · rw [if_pos hc5] at hres
      cases hread : readElementsByPaths env (jsonPaths (state inp.id)) with
      | error e => rw [hread] at hres; cases hres
      | ok elements =>
        rw [hread] at hres
        cases hres
        exact ⟨_, rfl⟩
    rw [if_neg hc5] at hres
    by_cases hc6 : inp.name = "GetFormaElements" ∨ inp.type = "GetAllElements"
    · rw [if_pos hc6] at hres
      cases hread : readElementsByPaths env (getAllPaths env) with
      | error e => rw [hread] at hres; cases hres
      | ok elements =>
        rw [hread] at hres
        cases hres
        exact ⟨_, rfl⟩
    rw [if_neg hc6] at hres
    by_cases hc7 : inp.type = "FormaTerrain"
    · rw [if_pos hc7] at hres
      cases htr : env.getTriangles ((env.pathsByCategory "terrain").headD "undefined") with
      | none => rw [htr] at hres; cases hres
      | some triangles =>
        rw [htr] at hres
        cases hres
        exact ⟨_, rfl⟩
    rw [if_neg hc7] at hres
    by_cases hc8 : inp.type = "GetTerrain"
    · exact absurd hc8 hngt
    rw [if_neg hc8] at hres
    by_cases hc9 : inp.type = "FormaProject" ∨ inp.type = "GetProject"
    · rw [if_pos hc9] at hres
      cases hres
      exact ⟨_, rfl⟩
    rw [if_neg hc9] at hres
    by_cases hc10 : inp.name = "Triangles" ∨ inp.type = "FormaSelectGeometry"
    · rw [if_pos hc10] at hres
      cases hps : jsonPathsStrict (state inp.id) with
      | error e => rw [hps] at hres; cases hres
      | ok paths =>
        rw [hps] at hres
        simp only [Except.bind] at hres
        cases htr : trianglesForPaths env paths with
        | error e => rw [htr] at hres; cases hres
        | ok ts =>
          rw [htr] at hres
          cases hres
          exact ⟨_, rfl⟩
    rw [if_neg hc10] at hres
    by_cases hc11 : inp.name = "Footprint" ∨ inp.type = "FormaSelectFootprints"
    · rw [if_pos hc11] at hres
      cases hps : jsonPathsStrict (state inp.id) with
      | error e => rw [hps] at hres; cases hres
      | ok paths =>
        rw [hps] at hres
        simp only [Except.bind] at hres
        cases hfp : footprintsForPaths env paths with
        | error e => rw [hfp] at hres; cases hres
        | ok fs =>
          rw [hfp] at hres
          cases hres
          exact ⟨_, rfl⟩
    rw [if_neg hc11] at hres
    by_cases hc12 : inp.name = "Metrics" ∨ inp.type = "FormaSelectMetrics"
        ∨ inp.type = "SelectMetrics"
    · rw [if_pos hc12] at hres
      cases hps : jsonPathsStrict (state inp.id) with
      | error e => rw [hps] at hres; cases hres
      | ok paths =>
        rw [hps] at hres
        cases hres
        exact ⟨_, rfl⟩
    exfalso
    rw [recognizedInput, decide_eq_true_iff] at hrec
    push_neg at hc5 hc6 hc9 hc10 hc11 hc12
    rcases hrec with h | h | h | h | h | h | h | h | h | h | h | h | h | h | h | h | h
        | h | h | h
    · exact hc1 h
    · exact hc2 h
    · exact hc3 h
    · exact hc4 h
    · exact hc5.1 h
    · exact hc5.2.1 h
    · exact hc5.2.2 h
    · exact hc6.1 h
    · exact hc6.2 h
    · exact hc7 h
    · exact hc8 h
    · exact hc9.1 h
    · exact hc9.2 h
    · exact hc10.1 h
    · exact hc10.2 h
    · exact hc11.1 h
    · exact hc11.2 h
    · exact hc12.1 h
    · exact hc12.2.1 h
    · exact hc12.2.2 h
  · intro env state inp pair htype hname hres
    rw [materializeInput_getTerrain env state inp htype hname] at hres
    cases hread : readElementsByPaths env (env.pathsByCategory "terrain") with
    | error e => rw [hread] at hres; cases hres
    | ok elements =>
      rw [hread] at hres
      simp only [Except.map] at hres
      cases hh : elements.head? with
      | some element0 =>
        rw [hh] at hres
        cases hres
        exact .inl ⟨_, rfl⟩
      | none =>
        rw [hh] at hres
        cases hres
        exact .inr rfl
  · intro env state inp htype hname hterr
    rw [materializeInput_getTerrain env state inp htype hname, hterr]
    rfl
  · intro env state inp htype
    simp [materializeInput, htype]
  · intro env state inp htype
    simp [materializeInput, htype]

/-- Closed witness for `c2_amended`: the boolean input falls through with its
raw value, the whole-model input produces the JSON-encoded `{urn, region}`
string, and the terrain input with no terrain path produces the JS undefined
value. -/
theorem c2_witness :
    recognizedInput c2Input = false
    ∧ materializeInput defaultFormaEnv c2State c2Input
        = .ok { nodeId := c2Input.id, value := c2State c2Input.id }
    ∧ c2RecognizedInput.type = "GetAllElementsExperimental"
    ∧ materializeInput defaultFormaEnv c2State c2RecognizedInput
        = .ok
          { nodeId := c2RecognizedInput.id,
            value := .str (Json.encode (.obj
              [("urn", .str defaultFormaEnv.rootUrn),
               ("region", .str defaultFormaEnv.region)])) }
    ∧ c2TerrainInput.type = "GetTerrain"
    ∧ defaultFormaEnv.pathsByCategory "terrain" = []
    ∧ materializeInput defaultFormaEnv c2State c2TerrainInput
        = .ok { nodeId := c2TerrainInput.id, value := Json.undef } :=
  ⟨by decide, c2_amended.1 defaultFormaEnv c2State c2Input (by decide), rfl,
   c2_amended.2.2.2.2.1 defaultFormaEnv c2State c2RecognizedInput rfl, rfl, rfl,
   c2_amended.2.2.2.1 defaultFormaEnv c2State c2TerrainInput rfl (by decide) rfl⟩

theorem Element.size_child_lt {c : String × Element} {e : Element} (hc : c ∈ e.children) :
    c.2.size < e.size := by
  cases e with
  | mk u r cs =>
    have h1 := Element.size_le_of_mem (show c ∈ cs by simpa [Element.children] using hc)
    have h2 := Element.sizeChildren_lt_size u r cs
    omega

theorem enumerateSpec_unfold (e : Element) (path : String) :
    enumeratePathsSpec e path
      = path :: (e.children.map (fun c => enumeratePathsSpec c.2 (path ++ "/" ++ c.1))).flatten := by
  rw [enumeratePathsSpec]
  congr 1
  congr 1
  exact List.attach_map_val e.children (fun c => enumeratePathsSpec c.2 (path ++ "/" ++ c.1))

theorem find?_eq_of_mem_nodup {cs : List (String × Element)} {c : String × Element}
    (hnodup : (cs.map Prod.fst).Nodup) (hc : c ∈ cs) :
    cs.find? (fun child => child.1 = c.1) = some c := by
  induction cs with
  | nil => cases hc
  | cons d ds ih =>
    have hnodup2 : (d.1 :: ds.map Prod.fst).Nodup := by simpa using hnodup
    rcases List.mem_cons.mp hc with rfl | hmem
    · exact List.find?_cons_of_pos _ (by simp)
    · have hd : ¬(d.1 = c.1) := by
        intro he
        have h1 : d.1 ∉ ds.map Prod.fst := (List.nodup_cons.mp hnodup2).1
        rw [he] at h1
        exact h1 (List.mem_map_of_mem Prod.fst hmem)
      rw [List.find?_cons_of_neg _ (by simpa using hd)]
      exact ih hnodup2.of_cons hmem

theorem findAllPaths_eq_enumerateSpec (n : Nat) :
    ∀ (e : Element), e.size ≤ n → WellFormed e → ∀ (path : String),
      findAllPaths e path = enumeratePathsSpec e path := by
  induction n with
  | zero =>
    intro e hsz
    exact absurd hsz (by have := Element.size_pos e; omega)
  | succ n ih =>
    intro e hsz hwf path
    rw [findAllPaths, enumerateSpec_unfold]
    congr 1
    congr 1
    apply List.map_congr_left
    intro c hc
    split
    · rename_i child heq
      rw [find?_eq_of_mem_nodup hwf.nodup hc] at heq
      injection heq with heq2
      subst heq2
      have hsub : c.2.size ≤ n := by
        have := Element.size_child_lt hc
        omega
      exact ih c.2 hsub (hwf.child c hc) _
    · rename_i heq
      rw [find?_eq_of_mem_nodup hwf.nodup hc] at heq
      cases heq

theorem mem_enumerateSpec (n : Nat) :
    ∀ (e : Element), e.size ≤ n → ∀ (path q : String),
      (q ∈ enumeratePathsSpec e path
        ↔ ∃ ks, Follows e ks ∧ q = ks.foldl (fun p k => p ++ "/" ++ k) path) := by
  induction n with
  | zero =>
    intro e hsz
    exact absurd hsz (by have := Element.size_pos e; omega)
  | succ n ih =>
    intro e hsz path q
    rw [enumerateSpec_unfold]
    simp only [List.mem_cons, List.mem_flatten, List.mem_map]
    constructor
    · rintro (rfl | ⟨l, ⟨c, hc, rfl⟩, hql⟩)
      · exact ⟨[], Follows.nil e, rfl⟩
      · have hsub : c.2.size ≤ n := by
          have := Element.size_child_lt hc
          omega
        obtain ⟨ks, hf, rfl⟩ := (ih c.2 hsub (path ++ "/" ++ c.1) q).mp hql
        exact ⟨c.1 :: ks, Follows.cons c hc rfl hf, rfl⟩
    · rintro ⟨ks, hf, rfl⟩
      cases hf with
      | nil => exact .inl rfl
      | cons c hc hk hf2 =>
        right
        subst hk
        refine ⟨enumeratePathsSpec c.2 (path ++ "/" ++ c.1), ⟨c, hc, rfl⟩, ?_⟩
        have hsub : c.2.size ≤ n := by
          have := Element.size_child_lt hc
          omega
        exact (ih c.2 hsub (path ++ "/" ++ c.1) _).mpr ⟨_, hf2, rfl⟩

theorem foldl_appendKey_length (ks : List String) (p : String) :
    p.length ≤ (ks.foldl (fun p k => p ++ "/" ++ k) p).length := by
  induction ks generalizing p with
  | nil => simp
  | cons k ks ih =>
    simp only [List.foldl_cons]
    calc p.length ≤ (p ++ "/" ++ k).length := by
          simp only [String.length_append]
          omega
    _ ≤ _ := ih (p ++ "/" ++ k)

theorem foldl_appendKey_length_lt (ks : List String) (p : String) (h : ks ≠ []) :
    p.length < (ks.foldl (fun p k => p ++ "/" ++ k) p).length := by
  cases ks with
  | nil => exact absurd rfl h
  | cons k ks =>
    simp only [List.foldl_cons]
    have h1 : p.length < (p ++ "/" ++ k).length := by
      have hs : ("/" : String).length = 1 := rfl
      simp only [String.length_append, hs]
      omega
    exact lt_of_lt_of_le h1 (foldl_appendKey_length ks (p ++ "/" ++ k))

theorem foldl_appendKey_data (ks : List String) (p : String) :
    (ks.foldl (fun p k => p ++ "/" ++ k) p).data
      = p.data ++ (ks.map (fun k => '/' :: k.data)).flatten := by
  induction ks generalizing p with
  | nil => simp
  | cons k ks ih =>
    simp only [List.foldl_cons, List.map_cons, List.flatten_cons]
    rw [ih]
    have hs : ("/" : String).data = ['/'] := rfl
    simp [String.data_append, hs, List.append_assoc]

theorem takeWhile_slashFree_append (a r : List Char) (ha : ∀ c ∈ a, c ≠ '/')
    (hr : r = [] ∨ ∃ t, r = '/' :: t) :
    (a ++ r).takeWhile (fun c => !(c == '/')) = a := by
  rw [List.takeWhile_append_of_pos (by intro c hc; simpa using ha c hc)]
  rcases hr with rfl | ⟨t, rfl⟩
  · simp
  · simp [List.takeWhile_cons]

theorem slashBlocks_injective : ∀ (l1 l2 : List (List Char)),
    (∀ a ∈ l1, ∀ c ∈ a, c ≠ '/') → (∀ a ∈ l2, ∀ c ∈ a, c ≠ '/') →
    (l1.map (fun a => '/' :: a)).flatten = (l2.map (fun a => '/' :: a)).flatten →
    l1 = l2 := by
  intro l1
  induction l1 with
  | nil =>
    intro l2 h1 h2 heq
    cases l2 with
    | nil => rfl
    | cons b bs => simp at heq
  | cons a as ih =>
    intro l2 h1 h2 heq
    cases l2 with
    | nil => simp at heq
    | cons b bs =>
      simp only [List.map_cons, List.flatten_cons, List.cons_append] at heq
      injection heq with heq1 heq2
      have hshape : ∀ (l : List (List Char)),
          (l.map (fun a => '/' :: a)).flatten = []
            ∨ ∃ t, (l.map (fun a => '/' :: a)).flatten = '/' :: t := by
        intro l
        cases l with
        | nil => exact .inl rfl
        | cons x xs => exact .inr ⟨_, rfl⟩
      have hta := takeWhile_slashFree_append a ((as.map (fun a => '/' :: a)).flatten)
        (h1 a (List.mem_cons_self _ _)) (hshape as)
      have htb := takeWhile_slashFree_append b ((bs.map (fun a => '/' :: a)).flatten)
        (h2 b (List.mem_cons_self _ _)) (hshape bs)
      have hab : a = b := by rw [← hta, ← htb, heq2]
      subst hab
      have hrest := List.append_cancel_left heq2
      rw [ih bs (fun x hx => h1 x (List.mem_cons_of_mem _ hx))
        (fun x hx => h2 x (List.mem_cons_of_mem _ hx)) hrest]

theorem foldl_appendKey_injective {p : String} {ks1 ks2 : List String}
    (h1 : ∀ k ∈ ks1, ∀ c ∈ k.data, c ≠ '/')
    (h2 : ∀ k ∈ ks2, ∀ c ∈ k.data, c ≠ '/')
    (heq : ks1.foldl (fun p k => p ++ "/" ++ k) p
      = ks2.foldl (fun p k => p ++ "/" ++ k) p) :
    ks1 = ks2 := by
  have hd := congrArg String.data heq
  rw [foldl_appendKey_data, foldl_appendKey_data] at hd
  have hd2 := List.append_cancel_left hd
  have hmaps : ks1.map String.data = ks2.map String.data := by
    apply slashBlocks_injective (ks1.map String.data) (ks2.map String.data)
    · intro a ha
      obtain ⟨k, hk, rfl⟩ := List.mem_map.mp ha
      exact h1 k hk
    · intro a ha
      obtain ⟨k, hk, rfl⟩ := List.mem_map.mp ha
      exact h2 k hk
    · rw [List.map_map, List.map_map]
      exact hd2
  exact List.map_injective_iff.mpr (fun a b hab => String.ext hab) hmaps

theorem follows_slashFree {e : Element} {ks : List String} (hf : Follows e ks) :
    WellFormed e → ∀ k ∈ ks, ∀ ch ∈ k.data, ch ≠ '/' := by
  induction hf with
  | nil =>
    intro _ k hk
    cases hk
  | cons c hc hk hf2 ih =>
    intro hwf k hmem
    rcases List.mem_cons.mp hmem with rfl | hk2
    · intro ch hch hcheq
      subst hcheq
      have hsf := hwf.slashFree c hc
      rw [hk] at hsf
      exact hsf hch
    · exact ih (hwf.child c hc) k hk2

theorem nodup_enumerateSpec (n : Nat) :
    ∀ (e : Element), e.size ≤ n → WellFormed e → ∀ (path : String),
      (enumeratePathsSpec e path).Nodup := by
  induction n with
  | zero =>
    intro e hsz
    exact absurd hsz (by have := Element.size_pos e; omega)
  | succ n ih =>
    intro e hsz hwf path
    rw [enumerateSpec_unfold, List.nodup_cons]
    constructor
    · intro hmem
      rw [List.mem_flatten] at hmem
      obtain ⟨l, hl, hpl⟩ := hmem
      obtain ⟨c, hc, rfl⟩ := List.mem_map.mp hl
      obtain ⟨ks, hfol, hq⟩ := (mem_enumerateSpec c.2.size c.2 le_rfl _ _).mp hpl
      have hlt := foldl_appendKey_length_lt (c.1 :: ks) path (by simp)
      rw [List.foldl_cons, ← hq] at hlt
      omega
    · rw [List.nodup_flatten]
      constructor
      · intro l hl
        obtain ⟨c, hc, rfl⟩ := List.mem_map.mp hl
        have hsub : c.2.size ≤ n := by
          have := Element.size_child_lt hc
          omega
        exact ih c.2 hsub (hwf.child c hc) _
      · rw [List.pairwise_map]
        have hne : List.Pairwise (fun c d : String × Element => c.1 ≠ d.1) e.children :=
          List.pairwise_map.mp hwf.nodup
        refine List.Pairwise.imp_of_mem ?_ hne
        intro c d hcmem hdmem hne1
        intro q hq1 hq2
        obtain ⟨ks1, hf1, hqa⟩ := (mem_enumerateSpec c.2.size c.2 le_rfl _ _).mp hq1
        obtain ⟨ks2, hf2, hqb⟩ := (mem_enumerateSpec d.2.size d.2 le_rfl _ _).mp hq2
        have heq : (c.1 :: ks1).foldl (fun p k => p ++ "/" ++ k) path
            = (d.1 :: ks2).foldl (fun p k => p ++ "/" ++ k) path := by
          simp only [List.foldl_cons]
          rw [← hqa, ← hqb]
        have hk1 : ∀ k ∈ (c.1 :: ks1), ∀ ch ∈ k.data, ch ≠ '/' := by
          intro k hk
          rcases List.mem_cons.mp hk with rfl | hk2
          · intro ch hch hcheq
            subst hcheq
            exact hwf.slashFree c hcmem hch
          · exact follows_slashFree hf1 (hwf.child c hcmem) k hk2
        have hk2 : ∀ k ∈ (d.1 :: ks2), ∀ ch ∈ k.data, ch ≠ '/' := by
          intro k hk
          rcases List.mem_cons.mp hk with rfl | hk2
          · intro ch hch hcheq
            subst hcheq
            exact hwf.slashFree d hdmem hch
          · exact follows_slashFree hf2 (hwf.child d hdmem) k hk2
        have hinj := foldl_appendKey_injective hk1 hk2 heq
        injection hinj with hinj1 hinj2
        exact hne1 hinj1

/-- C6: over a well-formed snapshot (distinct, slash-free child keys at every
node — the data model's key-to-child mapping), the source's resolution-based
`getAllPaths` equals the specification's structural pre-order enumeration
(root first, then each child subtree in order), the enumeration contains the
root path, contains every path exactly once, and contains a path precisely
when it is reachable from the root by following child keys. -/
theorem c6_full_model_paths (env : FormaEnv) (hwf : WellFormed env.rootElement) :
    getAllPaths env = enumeratePathsSpec env.rootElement "root"
    ∧ "root" ∈ getAllPaths env
    ∧ (getAllPaths env).Nodup
    ∧ (∀ q, q ∈ getAllPaths env
        ↔ ∃ ks, Follows env.rootElement ks ∧ q = pathOfKeys ks) := by
  have h1 : getAllPaths env = enumeratePathsSpec env.rootElement "root" :=
    findAllPaths_eq_enumerateSpec env.rootElement.size env.rootElement le_rfl hwf "root"
  refine ⟨h1, ?_, ?_, ?_⟩
  · rw [h1, enumerateSpec_unfold]
    exact List.mem_cons_self _ _
  · rw [h1]
    exact nodup_enumerateSpec env.rootElement.size env.rootElement le_rfl hwf "root"
  · intro q
    rw [h1]
    exact mem_enumerateSpec env.rootElement.size env.rootElement le_rfl "root" q

theorem c6TreeWF : WellFormed (mkFormaEnv c6Tree).rootElement := by
  show WellFormed c6Tree
  refine WellFormed.mk (by decide) (by decide) ?_
  intro c hc
  simp only [c6Tree, Element.children, List.mem_cons, List.not_mem_nil, or_false] at hc
  rcases hc with rfl | rfl <;>
    · refine WellFormed.mk (by decide) (by decide) ?_
      intro d hd
      simp only [Element.children, List.mem_cons, List.not_mem_nil, or_false] at hd
      rcases hd with rfl | rfl <;>
        exact WellFormed.mk (by decide) (by decide) (by
          intro x hx
          simp [Element.children] at hx)

/-- Closed witness for `c6_full_model_paths` at a depth-3, branching-2
snapshot. -/
theorem c6_witness :
    WellFormed (mkFormaEnv c6Tree).rootElement
    ∧ (getAllPaths (mkFormaEnv c6Tree)
          = enumeratePathsSpec (mkFormaEnv c6Tree).rootElement "root"
        ∧ "root" ∈ getAllPaths (mkFormaEnv c6Tree)
        ∧ (getAllPaths (mkFormaEnv c6Tree)).Nodup
        ∧ (∀ q, q ∈ getAllPaths (mkFormaEnv c6Tree)
            ↔ ∃ ks, Follows (mkFormaEnv c6Tree).rootElement ks ∧ q = pathOfKeys ks)) :=
  ⟨c6TreeWF, c6_full_model_paths (mkFormaEnv c6Tree) c6TreeWF⟩

/-- Closed witness for `c7_selection_predicate` at the rule value `"ab"` and
the id `"abc"`. -/
theorem c7_witness :
    (∃ p, createSelectionPredicate (some (.equals "ab")) = .ok p
      ∧ (p "abc" = true ↔ "abc" = "ab"))
    ∧ (∃ p, createSelectionPredicate (some (.startsWith "ab")) = .ok p
        ∧ (p "abc" = true ↔ ∃ t, "abc".data = "ab".data ++ t))
    ∧ (∃ p, createSelectionPredicate (some (.startsWith "ab")) = .ok p
        ∧ p "abc" = true ∧ p "xab" = false)
    ∧ (∃ p, createSelectionPredicate none = .ok p ∧ p "abc" = true)
    ∧ (∃ e, createSelectionPredicate (some (.unrecognized "ab")) = .error e) :=
  c7_selection_predicate "ab" "abc"
